import Mathlib

/-!
Shallow embedding of the DID-API-EXPRESS registry service: the DID codec
used by the /resolve, /update and /transfer handlers, the BlockchainService
seam, the IPFS fetch fallback and the Express route handlers, translated
from src/index.ts (part_004) and src/services/blockchain.ts.
-/

namespace DidApi

/-- JavaScript `s.split(':')` on a single-character separator, over the
character list of the string.  `"".split(':') == [""]`, so the empty list
splits to `[[]]`. -/
def splitColon : List Char → List (List Char)
  | [] => [[]]
  | c :: cs =>
    if c = ':' then [] :: splitColon cs
    else
      match splitColon cs with
      | [] => [[c]]
      | s :: ss => (c :: s) :: ss

/-- Joining with ':' — the inverse direction of `splitColon`. -/
def joinColon : List (List Char) → List Char
  | [] => []
  | [s] => s
  | s :: ss => s ++ ':' :: joinColon ss

/-- JavaScript truthiness of an optional string: `undefined` and `""` are
falsy (`if (!did) ...`). -/
def jsTruthy (o : Option String) : Bool :=
  match o with
  | some s => decide (s ≠ "")
  | none => false

/-- JavaScript array indexing `l[i]`: a negative or out-of-range index
yields `undefined`, modelled as `none`. -/
def jsIndex (l : List String) (i : Int) : Option String :=
  if i < 0 then none else l.get? i.toNat

/-- JavaScript `x || d` on an optional string `x`: both `undefined` and the
empty string (falsy) are replaced by the default. -/
def jsOrString (o : Option String) (d : String) : String :=
  match o with
  | some s => if s = "" then d else s
  | none => d

/-- JavaScript `s.includes(pat)` — substring containment. -/
def strContains (s pat : String) : Bool :=
  decide (List.IsInfix pat.data s.data)

-- The fixed literal DID segments of `did:art:hkust:<recordId>`.

def didLit : List Char := ['d', 'i', 'd']

def artLit : List Char := ['a', 'r', 't']

def hkustLit : List Char := ['h', 'k', 'u', 's', 't']

/-- The DID validation shared by the /resolve, /update and /transfer
handlers: `parts = did.split(':')`; reject when `parts.length < 4` or
`parts[0] !== 'did'` or `parts[1] !== 'art'` or `parts[2] !== 'hkust'`;
otherwise the recordId is `parts[3]`. -/
def parseDID (d : List Char) : Option (List Char) :=
  match splitColon d with
  | p0 :: p1 :: p2 :: p3 :: _ =>
    if p0 = didLit ∧ p1 = artLit ∧ p2 = hkustLit then some p3 else none
  | _ => none

/-- DID formatting used by the /register response:
`` `did:art:hkust:${result.did}` ``. -/
def formatDID (recordId : List Char) : List Char :=
  "did:art:hkust:".data ++ recordId

/-- The spec's `InvalidFormat` condition, written from the spec's words
(minus the empty-recordId clause) for the refinement statement of C2:
segment count < 4 or segments 1–3 differ from the fixed literals. -/
def specInvalidFormat (d : List Char) : Prop :=
  (splitColon d).length < 4 ∨
    (splitColon d).get? 0 ≠ some didLit ∨
    (splitColon d).get? 1 ≠ some artLit ∨
    (splitColon d).get? 2 ≠ some hkustLit

lemma splitColon_ne_nil (l : List Char) : splitColon l ≠ [] := by
  cases l with
  | nil => simp [splitColon]
  | cons c cs =>
    simp only [splitColon]
    split
    · simp
    · split <;> simp

lemma joinColon_splitColon (l : List Char) : joinColon (splitColon l) = l := by
  induction l with
  | nil => rfl
  | cons c cs ih =>
    by_cases hc : c = ':'
    · subst hc
      have h1 : splitColon (':' :: cs) = [] :: splitColon cs := by
        simp [splitColon]
      rw [h1]
      cases hs : splitColon cs with
      | nil => exact absurd hs (splitColon_ne_nil cs)
      | cons a as =>
        rw [hs] at ih
        show [] ++ ':' :: joinColon (a :: as) = ':' :: cs
        simp [ih]
    · have h1 : splitColon (c :: cs) =
          match splitColon cs with
          | [] => [[c]]
          | s :: ss => (c :: s) :: ss := by
        simp [splitColon, hc]
      cases hs : splitColon cs with
      | nil => exact absurd hs (splitColon_ne_nil cs)
      | cons a as =>
        rw [hs] at h1 ih
        rw [h1]
        cases as with
        | nil =>
          show c :: a = c :: cs
          simpa [joinColon] using ih
        | cons b bs =>
          show (c :: a) ++ ':' :: joinColon (b :: bs) = c :: cs
          have h2 : joinColon (a :: b :: bs) = a ++ ':' :: joinColon (b :: bs) := rfl
          rw [h2] at ih
          simp [ih]

lemma splitColon_no_colon (l : List Char) (h : ':' ∉ l) : splitColon l = [l] := by
  induction l with
  | nil => rfl
  | cons c cs ih =>
    have hc : c ≠ ':' := by
      intro hcc
      exact h (hcc ▸ List.mem_cons_self c cs)
    have hcs : ':' ∉ cs := fun hm => h (List.mem_cons_of_mem c hm)
    simp [splitColon, hc, ih hcs]

lemma splitColon_append_colon (p x : List Char) (hp : ':' ∉ p) :
    splitColon (p ++ ':' :: x) = p :: splitColon x := by
  induction p with
  | nil => simp [splitColon]
  | cons c cs ih =>
    have hc : c ≠ ':' := by
      intro hcc
      exact hp (hcc ▸ List.mem_cons_self c cs)
    have hcs : ':' ∉ cs := fun hm => hp (List.mem_cons_of_mem c hm)
    simp [splitColon, hc, ih hcs]

/-- A raw on-chain record as decoded by ethers from
`contract.getFullRecord`: the `cid` and `owner` arrays and the two epoch
timestamps. -/
structure RawRecord where
  cid : List String
  owner : List String
  created_at : Nat
  updated_at : Nat
  deriving DecidableEq

/-- An ethers transaction-receipt log entry (only the `topics` matter to
this service). -/
structure EthLog where
  topics : List String
  deriving DecidableEq

/-- An ethers transaction receipt: its logs and its transaction hash. -/
structure Receipt where
  logs : List EthLog
  hash : String
  deriving DecidableEq

/-- Stands for `ethers.id("RecordSet(bytes32,string,address,uint256)")`,
the event topic `registerArtwork` searches the receipt logs for; the hash
itself is opaque to this service, so the signature string stands in for
it. -/
def recordSetTopic : String := "RecordSet(bytes32,string,address,uint256)"

/-- Stands for `ethers.hexlify` applied to a topic that is already a hex
string: the identity on the encoded form. -/
def hexlify (s : String) : String := s

/-- Result of `BlockchainService.registerArtwork`. -/
structure RegisterResult where
  did : String
  txHash : String
  deriving DecidableEq

/-- `BlockchainService.registerArtwork`, as a function of the outcome of
`setRecord(cid)` + `tx.wait()`: find the `RecordSet` log among the
receipt's logs; `actualDid` is its second topic, or `""` when no such log
exists; a thrown contract error is wrapped. -/
def registerArtwork (r : Except String Receipt) : Except String RegisterResult :=
  match r with
  | .error e => .error ("Blockchain transaction failed: " ++ e)
  | .ok receipt =>
    let eventLog := receipt.logs.find? fun l => decide (l.topics.head? = some recordSetTopic)
    let actualDid :=
      match eventLog with
      | some l => hexlify ((l.topics.get? 1).getD "")
      | none => ""
    .ok { did := actualDid, txHash := receipt.hash }

/-- The resolution object built by `BlockchainService.resolveDID`. -/
structure DIDResolution where
  did : String
  cid : String
  serviceEndpoint : String
  createdAt : Nat
  updatedAt : Nat
  walletaddress : String
  resolvedAt : String
  owners : List String
  cidHistory : List String
  deriving DecidableEq

/-- `BlockchainService.resolveDID`, as a function of the contract's
`getFullRecord` outcome: an empty `cid` history throws `DID not found`
(wrapped by the method's own catch into `Failed to resolve DID: ...`);
otherwise the latest cid and current owner are the last array entries.
`now` stands for `new Date().toISOString()`. -/
def resolveDIDService (did now : String) (raw : Except String RawRecord) :
    Except String DIDResolution :=
  match raw with
  | .error e => .error ("Failed to resolve DID: " ++ e)
  | .ok rec =>
    if rec.cid.length = 0 then .error "Failed to resolve DID: DID not found"
    else
      let latestCid := rec.cid.getLast?.getD ""
      let currentOwner := if rec.owner.length > 0 then rec.owner.getLast?.getD "" else ""
      .ok { did := did, cid := latestCid, serviceEndpoint := "ipfs://" ++ latestCid,
            createdAt := rec.created_at, updatedAt := rec.updated_at,
            walletaddress := currentOwner, resolvedAt := now,
            owners := rec.owner, cidHistory := rec.cid }

/-- `BlockchainService.checkDIDExists`, as a function of the contract's
`hasRecord` outcome. -/
def checkDIDExists (r : Except String Bool) : Except String Bool :=
  match r with
  | .error e => .error ("Failed to check DID: " ++ e)
  | .ok b => .ok b

/-- `BlockchainService.updateArtwork`, as a function of the
`updateRecord` transaction outcome: returns the receipt hash. -/
def updateArtwork (r : Except String String) : Except String String :=
  match r with
  | .error e => .error ("Update transaction failed: " ++ e)
  | .ok h => .ok h

/-- `BlockchainService.transferOwnership`, as a function of the
`transferOwnership` transaction outcome: returns the receipt hash. -/
def transferOwnership (r : Except String String) : Except String String :=
  match r with
  | .error e => .error ("Ownership transfer failed: " ++ e)
  | .ok h => .ok h

/-- The reshaped record returned by `BlockchainService.getFullRecord`. -/
structure FullRecord where
  cids : List String
  createdAt : Nat
  updatedAt : Nat
  owners : List String
  cidCount : Nat
  ownerCount : Nat
  deriving DecidableEq

/-- `BlockchainService.getFullRecord`, as a function of the contract's
`getFullRecord` outcome: reshapes the raw record (note: no emptiness
check, unlike `resolveDID`). -/
def getFullRecord (r : Except String RawRecord) : Except String FullRecord :=
  match r with
  | .error e => .error ("Failed to get full record: " ++ e)
  | .ok rec =>
    .ok { cids := rec.cid, createdAt := rec.created_at, updatedAt := rec.updated_at,
          owners := rec.owner, cidCount := rec.cid.length, ownerCount := rec.owner.length }

/-- `BlockchainService.getCurrentOwner`, as a function of the owners
array destructured from the contract's `getLatestRecord` outcome: the
last entry, or `""` when there is none. -/
def getCurrentOwner (r : Except String (List String)) : Except String String :=
  match r with
  | .error e => .error ("Failed to get current owner: " ++ e)
  | .ok owners => .ok (owners.getLast?.getD "")

/-- One HTTP attempt recorded by the fetch loop: the URL requested and the
`AbortSignal.timeout` bound (milliseconds) passed with the request. -/
structure Attempt where
  url : String
  timeoutMs : Nat
  deriving DecidableEq

/-- The primary fetch URL `` `${IPFS_API_URL}/api/v0/cat?arg=${cid}` ``. -/
def primaryUrl (base cid : String) : String :=
  base ++ "/api/v0/cat?arg=" ++ cid

/-- The fixed, priority-ordered public gateway URLs tried by
`fetchFromIPFS` after the local node. -/
def gatewayUrls (cid : String) : List String :=
  ["https://cloudflare-ipfs.com/ipfs/" ++ cid,
   "https://dweb.link/ipfs/" ++ cid,
   "https://gateway.pinata.cloud/ipfs/" ++ cid,
   "https://ipfs.io/ipfs/" ++ cid]

/-- The `for (const gatewayUrl of gateways)` loop of `fetchFromIPFS`: each
gateway is requested with a 3000 ms bound; `oracle url = some data` means
the request returned ok with parseable JSON within its bound, `none` any
failure (timeout, thrown error, or non-ok status — all of which make the
loop `continue`).  Returns the attempts made and the outcome: the first
success's data, or the exhaustion error once every gateway has failed. -/
def tryGateways (oracle : String → Option String) (cid : String) :
    List String → List Attempt × Except String String
  | [] => ([], .error ("All IPFS sources failed for CID: " ++ cid))
  | url :: rest =>
    match oracle url with
    | some data => ([⟨url, 3000⟩], .ok data)
    | none =>
      let r := tryGateways oracle cid rest
      (⟨url, 3000⟩ :: r.1, r.2)

/-- `fetchFromIPFS`: when `IPFS_API_URL` is configured, first try the
caller-operated node with a 5000 ms bound; on any failure (or when it is
not configured) fall through to the sequential public-gateway loop. -/
def fetchFromIPFS (ipfsApiUrl : Option String) (oracle : String → Option String)
    (cid : String) : List Attempt × Except String String :=
  match ipfsApiUrl with
  | some base =>
    match oracle (primaryUrl base cid) with
    | some data => ([⟨primaryUrl base cid, 5000⟩], .ok data)
    | none =>
      let r := tryGateways oracle cid (gatewayUrls cid)
      (⟨primaryUrl base cid, 5000⟩ :: r.1, r.2)
  | none => tryGateways oracle cid (gatewayUrls cid)

lemma tryGateways_all_fail (oracle : String → Option String) (cid : String)
    (urls : List String) (h : ∀ u ∈ urls, oracle u = none) :
    tryGateways oracle cid urls =
      (urls.map fun w => ⟨w, 3000⟩, .error ("All IPFS sources failed for CID: " ++ cid)) := by
  induction urls with
  | nil => rfl
  | cons u rest ih =>
    have hu : oracle u = none := h u (List.mem_cons_self u rest)
    have hrest : ∀ v ∈ rest, oracle v = none := fun v hv => h v (List.mem_cons_of_mem u hv)
    simp [tryGateways, hu, ih hrest]

lemma tryGateways_first_success (oracle : String → Option String) (cid : String)
    (pre : List String) (u : String) (post : List String) (d : String)
    (hpre : ∀ v ∈ pre, oracle v = none) (hu : oracle u = some d) :
    tryGateways oracle cid (pre ++ u :: post) =
      ((pre ++ [u]).map fun w => ⟨w, 3000⟩, .ok d) := by
  induction pre with
  | nil => simp [tryGateways, hu]
  | cons v vs ih =>
    have hv : oracle v = none := hpre v (List.mem_cons_self v vs)
    have hvs : ∀ w ∈ vs, oracle w = none := fun w hw => hpre w (List.mem_cons_of_mem v hw)
    simp [tryGateways, hv, ih hvs]

lemma tryGateways_error_iff (oracle : String → Option String) (cid : String)
    (urls : List String) :
    (tryGateways oracle cid urls).2 = .error ("All IPFS sources failed for CID: " ++ cid) ↔
      ∀ u ∈ urls, oracle u = none := by
  induction urls with
  | nil => simp [tryGateways]
  | cons u rest ih =>
    cases hu : oracle u with
    | some d => simp [tryGateways, hu]
    | none => simpa [tryGateways, hu] using ih

/-- One character class of the `/^0x[a-fA-F0-9]{40}$/` pattern. -/
def isHexDigitChar (c : Char) : Bool :=
  decide (('0' ≤ c ∧ c ≤ '9') ∨ ('a' ≤ c ∧ c ≤ 'f') ∨ ('A' ≤ c ∧ c ≤ 'F'))

/-- `transfer.newOwner.match(/^0x[a-fA-F0-9]{40}$/)` as a boolean:
the string is `0x` followed by exactly 40 hex digits. -/
def ethAddressMatch (s : String) : Bool :=
  match s.data with
  | '0' :: 'x' :: rest => rest.length == 40 && rest.all isHexDigitChar
  | _ => false

/-- The metadata object the /update handler uploads to IPFS: the spread of
the client metadata (kept opaque in `base`) augmented with the fields the
handler adds.  (`created` holds either the ISO rendering of the on-chain
`createdAt` or the request-time `now`.) -/
structure EnhancedMeta where
  base : String
  standard : String
  created : String
  updated : String
  version : Nat
  previousVersion : Nat
  deriving DecidableEq

/-- An outward call the handlers make on the ledger or content store,
recorded in order as a side-effect trace. -/
inductive Call where
  | hasRecord (did : String)
  | contractGetFullRecord (recordId : String)
  | ipfsPut (payload : EnhancedMeta)
  | ledgerUpdate (recordId newCid : String)
  | ledgerTransfer (recordId newOwner : String)
  | getLatestRecord (recordId : String)
  deriving DecidableEq

/-- An Express JSON reply: either the 200 success body or an error status
with the error string sent in the JSON body. -/
inductive HResp (β : Type) where
  | ok (body : β)
  | err (status : Nat) (error : String)
  deriving DecidableEq

/-- The HTTP status of a reply (`res.json` without `res.status` is 200). -/
def HResp.statusCode {β : Type} : HResp β → Nat
  | .ok _ => 200
  | .err s _ => s

/-- The success body of `GET /resolve`. -/
structure ResolveBody where
  responseCode : Nat
  id : String
  blockchainData : DIDResolution
  ipfsMetadata : Option String
  ipfsError : Option String
  deriving DecidableEq

/-- The `GET /resolve` handler.  `contractGetFull` is the contract read
behind `resolveDID`; `fetch` is the IPFS fetch, `.error` meaning
`fetchFromIPFS` threw.  The outer catch maps an error message containing
`not found` to 404 and anything else to 500. -/
def resolveHandler (didParam : Option String)
    (contractGetFull : String → Except String RawRecord)
    (fetch : String → Except String String) (now : String) :
    List Call × HResp ResolveBody :=
  if !(jsTruthy didParam) then ([], .err 400 "DID parameter is required")
  else
    let did := didParam.getD ""
    match parseDID did.data with
    | none => ([], .err 400 "Invalid DID format. Expected: did:art:hkust:<hash>")
    | some hashChars =>
      let hash := String.mk hashChars
      match resolveDIDService hash now (contractGetFull hash) with
      | .error e =>
        ([.contractGetFullRecord hash],
         if strContains e "not found" then .err 404 e else .err 500 e)
      | .ok blockchainData =>
        match fetch blockchainData.cid with
        | .ok m =>
          ([.contractGetFullRecord hash],
           .ok { responseCode := 0, id := did, blockchainData := blockchainData,
                 ipfsMetadata := some m, ipfsError := none })
        | .error e =>
          ([.contractGetFullRecord hash],
           .ok { responseCode := 0, id := did, blockchainData := blockchainData,
                 ipfsMetadata := none, ipfsError := some e })

/-- The `GET /check` handler: the raw `did` query string is handed to the
ledger's `hasRecord` with no codec parsing at all. -/
def checkHandler (didParam : Option String)
    (hasRecord : String → Except String Bool) : List Call × HResp Bool :=
  if !(jsTruthy didParam) then ([], .err 400 "DID parameter is required")
  else
    let did := didParam.getD ""
    ([.hasRecord did],
     match checkDIDExists (hasRecord did) with
     | .ok b => .ok b
     | .error e => .err 500 e)

/-- The body of `POST /register`. -/
structure RegisterReq where
  metadata : Option String
  deriving DecidableEq

/-- The success body of `POST /register`. -/
structure RegisterBody where
  did : String
  standard : String
  txHash : String
  cid : String
  ipfsUrl : String
  metadata : String
  deriving DecidableEq

/-- The `POST /register` handler.  `upload` is the outcome of
`uploadToIPFS(enhancedMetadata)`; `register` is the contract
`setRecord`/`tx.wait` outcome as a function of the uploaded cid.  The
response DID is `` `did:art:hkust:${result.did}` ``. -/
def registerHandler (req : RegisterReq) (upload : Except String String)
    (register : String → Except String Receipt) : HResp RegisterBody :=
  if !(jsTruthy req.metadata) then .err 400 "Artwork metadata is required"
  else
    match upload with
    | .error e => .err 500 e
    | .ok cid =>
      match registerArtwork (register cid) with
      | .error e => .err 500 e
      | .ok result =>
        .ok { did := "did:art:hkust:" ++ result.did, standard := "Karen 1.0",
              txHash := result.txHash, cid := cid,
              ipfsUrl := "https://ipfs.io/ipfs/" ++ cid,
              metadata := req.metadata.getD "" }

/-- The body of `PUT /update`. -/
structure UpdateReq where
  did : Option String
  metadata : Option String
  deriving DecidableEq

/-- The success body of `PUT /update`.  `previousCid` is the JavaScript
`fullRecord.cids[fullRecord.cids.length - 1]`, `undefined` (`none`) on an
empty history. -/
structure UpdateBody where
  did : String
  txHash : String
  newCid : String
  previousCid : Option String
  ipfsUrl : String
  version : Nat
  metadata : String
  deriving DecidableEq

/-- The `PUT /update` handler.  `contractGetFull` is the contract read
behind `getFullRecord`; `put` is `uploadToIPFS` on the enhanced metadata;
`contractUpdate` the `updateRecord` transaction outcome; `isoOfEpoch`
stands for `ts => new Date(ts * 1000).toISOString()` and `now` for
`new Date().toISOString()`. -/
def updateHandler (req : UpdateReq)
    (contractGetFull : String → Except String RawRecord)
    (put : EnhancedMeta → Except String String)
    (contractUpdate : String → String → Except String String)
    (isoOfEpoch : Nat → String) (now : String) : List Call × HResp UpdateBody :=
  if !(jsTruthy req.did) || !(jsTruthy req.metadata) then
    ([], .err 400 "DID and metadata are required")
  else
    let did := req.did.getD ""
    match parseDID did.data with
    | none => ([], .err 400 "Invalid DID format. Expected: did:art:hkust:<hash>")
    | some hashChars =>
      let didHash := String.mk hashChars
      match getFullRecord (contractGetFull didHash) with
      | .error e => ([.contractGetFullRecord didHash], .err 500 e)
      | .ok fullRecord =>
        let currentVersion := fullRecord.cidCount
        let enhancedMetadata : EnhancedMeta :=
          { base := req.metadata.getD "", standard := "Karen 2.0",
            created := if fullRecord.createdAt ≠ 0 then isoOfEpoch fullRecord.createdAt else now,
            updated := now, version := currentVersion + 1,
            previousVersion := currentVersion }
        match put enhancedMetadata with
        | .error e =>
          ([.contractGetFullRecord didHash, .ipfsPut enhancedMetadata], .err 500 e)
        | .ok newCid =>
          match updateArtwork (contractUpdate didHash newCid) with
          | .error e =>
            ([.contractGetFullRecord didHash, .ipfsPut enhancedMetadata,
              .ledgerUpdate didHash newCid], .err 500 e)
          | .ok tx =>
            ([.contractGetFullRecord didHash, .ipfsPut enhancedMetadata,
              .ledgerUpdate didHash newCid],
             .ok { did := did, txHash := tx, newCid := newCid,
                   previousCid := jsIndex fullRecord.cids ((fullRecord.cids.length : Int) - 1),
                   ipfsUrl := "https://ipfs.io/ipfs/" ++ newCid,
                   version := currentVersion + 1,
                   metadata := req.metadata.getD "" })

/-- The body of `POST /transfer`. -/
structure TransferReq where
  did : Option String
  newOwner : Option String
  deriving DecidableEq

/-- The success body of `POST /transfer`.  `previousOwner` is
`fullRecord.owners[fullRecord.owners.length - 2] || "N/A"`. -/
structure TransferBody where
  did : String
  txHash : String
  previousOwner : String
  newOwner : String
  currentOwner : String
  totalOwners : Nat
  deriving DecidableEq

/-- The /transfer catch block: 403 when the wrapped ledger error mentions
`Only current owner can transfer`, 400 when it mentions
`Address is already an owner`, else 500. -/
def transferCatch (e : String) : HResp TransferBody :=
  if strContains e "Only current owner can transfer" then .err 403 e
  else if strContains e "Address is already an owner" then .err 400 e
  else .err 500 e

/-- The `POST /transfer` handler.  `contractTransfer` is the
`transferOwnership` transaction outcome; `contractGetFull` and
`contractGetLatestOwners` are the contract reads issued after it (the
post-mutation re-reads). -/
def transferHandler (req : TransferReq)
    (contractTransfer : String → String → Except String String)
    (contractGetFull : String → Except String RawRecord)
    (contractGetLatestOwners : String → Except String (List String)) :
    List Call × HResp TransferBody :=
  if !(jsTruthy req.did) || !(jsTruthy req.newOwner) then
    ([], .err 400 "DID and newOwner are required")
  else
    let did := req.did.getD ""
    match parseDID did.data with
    | none => ([], .err 400 "Invalid DID format. Expected: did:art:hkust:<hash>")
    | some hashChars =>
      let didHash := String.mk hashChars
      let newOwner := req.newOwner.getD ""
      if !(ethAddressMatch newOwner) then
        ([], .err 400 "Invalid Ethereum address format")
      else
        match transferOwnership (contractTransfer didHash newOwner) with
        | .error e => ([.ledgerTransfer didHash newOwner], transferCatch e)
        | .ok tx =>
          match getFullRecord (contractGetFull didHash) with
          | .error e =>
            ([.ledgerTransfer didHash newOwner, .contractGetFullRecord didHash],
             transferCatch e)
          | .ok fullRecord =>
            match getCurrentOwner (contractGetLatestOwners didHash) with
            | .error e =>
              ([.ledgerTransfer didHash newOwner, .contractGetFullRecord didHash,
                .getLatestRecord didHash], transferCatch e)
            | .ok currentOwner =>
              ([.ledgerTransfer didHash newOwner, .contractGetFullRecord didHash,
                .getLatestRecord didHash],
               .ok { did := did, txHash := tx,
                     previousOwner :=
                       jsOrString (jsIndex fullRecord.owners ((fullRecord.owners.length : Int) - 2)) "N/A",
                     newOwner := newOwner, currentOwner := currentOwner,
                     totalOwners := fullRecord.ownerCount })

lemma parseDID_cons (d p0 p1 p2 p3 : List Char) (rest : List (List Char))
    (hs : splitColon d = p0 :: p1 :: p2 :: p3 :: rest) :
    parseDID d = if p0 = didLit ∧ p1 = artLit ∧ p2 = hkustLit then some p3 else none := by
  unfold parseDID
  rw [hs]

lemma parseDID_short (d : List Char) (hlen : (splitColon d).length < 4) :
    parseDID d = none := by
  unfold parseDID
  rcases hs : splitColon d with _ | ⟨p0, _ | ⟨p1, _ | ⟨p2, _ | ⟨p3, rest⟩⟩⟩⟩
  · rfl
  · rfl
  · rfl
  · rfl
  · rw [hs] at hlen
    simp only [List.length_cons] at hlen
    omega

lemma parseDID_eq_some (d r : List Char) (hp : parseDID d = some r) :
    ∃ rest, splitColon d = didLit :: artLit :: hkustLit :: r :: rest := by
  rcases hs : splitColon d with _ | ⟨p0, _ | ⟨p1, _ | ⟨p2, _ | ⟨p3, rest⟩⟩⟩⟩
  · exact absurd hs (splitColon_ne_nil d)
  · rw [parseDID_short d (by rw [hs]; simp)] at hp
    cases hp
  · rw [parseDID_short d (by rw [hs]; simp)] at hp
    cases hp
  · rw [parseDID_short d (by rw [hs]; simp)] at hp
    cases hp
  · rw [parseDID_cons d p0 p1 p2 p3 rest hs] at hp
    by_cases h : p0 = didLit ∧ p1 = artLit ∧ p2 = hkustLit
    · rw [if_pos h] at hp
      obtain ⟨h0, h1, h2⟩ := h
      obtain rfl : p3 = r := by injection hp
      exact ⟨rest, by rw [h0, h1, h2]⟩
    · rw [if_neg h] at hp
      cases hp

/-- C1 (counterexample): the DID validation accepts strings with more
than 4 colon segments (`parts.length < 4` is the only length check), and
on such a DID the codec does not round-trip: `did:art:hkust:a:b` parses
to recordId `a`, which formats back to `did:art:hkust:a`. -/
theorem c1_roundtrip_counterexample :
    parseDID "did:art:hkust:a:b".data = some ['a'] ∧
      formatDID ['a'] ≠ "did:art:hkust:a:b".data := by
  decide

/-- C1 (amended): for every DID string accepted by the /resolve, /update,
/transfer validation whose colon-segment count is exactly 4, formatting
the extracted recordId with the fixed `did:art:hkust:` prefix yields the
original string. -/
theorem c1_roundtrip_amended (d r : List Char) (hp : parseDID d = some r)
    (hlen : (splitColon d).length = 4) : formatDID r = d := by
  obtain ⟨rest, hs⟩ := parseDID_eq_some d r hp
  rw [hs] at hlen
  simp only [List.length_cons] at hlen
  have hrest : rest = [] := by
    have : rest.length = 0 := by omega
    exact List.length_eq_zero.mp this
  subst hrest
  have hd := (joinColon_splitColon d).symm
  rw [hs] at hd
  rw [hd]
  rfl

/-- C1 (witness): the amended round-trip at the concrete DID
`did:art:hkust:abc`. -/
theorem c1_roundtrip_witness :
    parseDID "did:art:hkust:abc".data = some ['a', 'b', 'c'] ∧
      (splitColon "did:art:hkust:abc".data).length = 4 ∧
      formatDID ['a', 'b', 'c'] = "did:art:hkust:abc".data :=
  ⟨by decide, by decide,
    c1_roundtrip_amended "did:art:hkust:abc".data ['a', 'b', 'c'] (by decide) (by decide)⟩

/-- C2 (counterexample): the validation does not reject an empty fourth
segment: `did:art:hkust:` splits to a fourth segment `""`, yet parse
succeeds (returning the empty recordId) where the claim requires an
`InvalidFormat` failure. -/
theorem c2_parse_counterexample :
    (splitColon "did:art:hkust:".data).get? 3 = some [] ∧
      parseDID "did:art:hkust:".data = some [] := by
  decide

/-- C2 (amended): parse fails exactly when the colon-segment count is
less than 4 or segments 1–3 are not the literals `did`, `art`, `hkust`;
an empty fourth segment is accepted, and on success the returned recordId
is the fourth segment. -/
theorem c2_parse_characterization (d : List Char) :
    (parseDID d = none ↔ specInvalidFormat d) ∧
      ∀ r, parseDID d = some r → (splitColon d).get? 3 = some r := by
  rcases hs : splitColon d with _ | ⟨p0, _ | ⟨p1, _ | ⟨p2, _ | ⟨p3, rest⟩⟩⟩⟩
  · exact absurd hs (splitColon_ne_nil d)
  · have hp := parseDID_short d (by rw [hs]; simp)
    exact ⟨by simp [hp, specInvalidFormat, hs], fun r hr => by rw [hp] at hr; cases hr⟩
  · have hp := parseDID_short d (by rw [hs]; simp)
    exact ⟨by simp [hp, specInvalidFormat, hs], fun r hr => by rw [hp] at hr; cases hr⟩
  · have hp := parseDID_short d (by rw [hs]; simp)
    exact ⟨by simp [hp, specInvalidFormat, hs], fun r hr => by rw [hp] at hr; cases hr⟩
  · have hp := parseDID_cons d p0 p1 p2 p3 rest hs
    refine ⟨?_, ?_⟩
    · by_cases h : p0 = didLit ∧ p1 = artLit ∧ p2 = hkustLit
      · obtain ⟨h0, h1, h2⟩ := h
        rw [hp, if_pos ⟨h0, h1, h2⟩]
        constructor
        · intro hco
          cases hco
        · intro hsp
          rcases hsp with hsp | hsp | hsp | hsp
          · rw [hs] at hsp
            simp only [List.length_cons] at hsp
            omega
          · exact absurd (by rw [hs]; simp [h0]) hsp
          · exact absurd (by rw [hs]; simp [h1]) hsp
          · exact absurd (by rw [hs]; simp [h2]) hsp
      · rw [hp, if_neg h]
        simp only [not_and_or] at h
        constructor
        · intro _
          rcases h with h | h | h
          · refine Or.inr (Or.inl ?_)
            rw [hs]
            simpa using h
          · refine Or.inr (Or.inr (Or.inl ?_))
            rw [hs]
            simpa using h
          · refine Or.inr (Or.inr (Or.inr ?_))
            rw [hs]
            simpa using h
        · intro _
          rfl
    · intro r hr
      rw [hp] at hr
      by_cases h : p0 = didLit ∧ p1 = artLit ∧ p2 = hkustLit
      · rw [if_pos h] at hr
        injection hr with hr
        rw [hr]
        simp
      · rw [if_neg h] at hr
        cases hr

/-- C2 (witness): the characterization at the concrete accepted DID
`did:art:hkust:abc`. -/
theorem c2_parse_witness :
    parseDID "did:art:hkust:abc".data = some ['a', 'b', 'c'] ∧
      (splitColon "did:art:hkust:abc".data).get? 3 = some ['a', 'b', 'c'] :=
  ⟨by decide,
    (c2_parse_characterization "did:art:hkust:abc".data).2 ['a', 'b', 'c'] (by decide)⟩

/-- C3 (counterexample): the claim says the getFull read behind the
Update pre-read fails `RecordNotFound` on an empty content-address
history and never returns such a record; but
`BlockchainService.getFullRecord` performs no emptiness check and returns
the empty-history record successfully. -/
theorem c3_getFullRecord_counterexample :
    getFullRecord (.ok { cid := [], owner := [], created_at := 0, updated_at := 0 }) =
      .ok { cids := [], createdAt := 0, updatedAt := 0, owners := [],
            cidCount := 0, ownerCount := 0 } := by
  rfl

/-- C3 (amended): the Resolve-side read (`BlockchainService.resolveDID`)
fails with `DID not found` when the ledger returns an empty
content-address history and never returns a resolution with an empty
history; the Update pre-read (`BlockchainService.getFullRecord`) performs
no such check and returns the record unconditionally. -/
theorem c3_notFound_amended (d now : String) (rec : RawRecord) :
    (rec.cid = [] →
        resolveDIDService d now (.ok rec) = .error "Failed to resolve DID: DID not found") ∧
      (∀ res, resolveDIDService d now (.ok rec) = .ok res → res.cidHistory ≠ []) ∧
      getFullRecord (.ok rec) =
        .ok { cids := rec.cid, createdAt := rec.created_at, updatedAt := rec.updated_at,
              owners := rec.owner, cidCount := rec.cid.length,
              ownerCount := rec.owner.length } := by
  refine ⟨fun hcid => ?_, fun res hres => ?_, rfl⟩
  · simp [resolveDIDService, hcid]
  · by_cases hnil : rec.cid = []
    · simp [resolveDIDService, hnil] at hres
    · have hlen : ¬rec.cid.length = 0 := by
        simpa [List.length_eq_zero] using hnil
      simp [resolveDIDService, hlen] at hres
      rw [← hres]
      exact hnil

/-- C3 (witness): the amended statement evaluated at an empty-history
record: `resolveDID` fails with the not-found error there. -/
theorem c3_notFound_witness :
    resolveDIDService "0xabc" "t" (.ok { cid := [], owner := [], created_at := 0, updated_at := 0 }) =
      .error "Failed to resolve DID: DID not found" :=
  (c3_notFound_amended "0xabc" "t" { cid := [], owner := [], created_at := 0, updated_at := 0 }).1 rfl

/-- C4: when the DID is valid and the ledger read succeeds, a failure of
the IPFS fetch does not fail Resolve — the handler still replies 200 with
the ledger-derived `blockchainData`, a `none` metadata field and a `some`
fetch-error string; when the fetch succeeds the metadata field carries
the fetched content and the error field is `none`. -/
theorem c4_bestEffort_fetch (didParam : Option String)
    (contractGetFull : String → Except String RawRecord)
    (fetch : String → Except String String) (now didStr : String)
    (hashChars : List Char) (bd : DIDResolution)
    (hd : didParam = some didStr) (ht : jsTruthy didParam = true)
    (hp : parseDID didStr.data = some hashChars)
    (hres : resolveDIDService (String.mk hashChars) now
        (contractGetFull (String.mk hashChars)) = .ok bd) :
    (∀ e, fetch bd.cid = .error e →
        resolveHandler didParam contractGetFull fetch now =
          ([.contractGetFullRecord (String.mk hashChars)],
           .ok { responseCode := 0, id := didStr, blockchainData := bd,
                 ipfsMetadata := none, ipfsError := some e })) ∧
      ∀ m, fetch bd.cid = .ok m →
        resolveHandler didParam contractGetFull fetch now =
          ([.contractGetFullRecord (String.mk hashChars)],
           .ok { responseCode := 0, id := didStr, blockchainData := bd,
                 ipfsMetadata := some m, ipfsError := none }) := by
  subst hd
  refine ⟨fun e he => ?_, fun m hm => ?_⟩
  · simp [resolveHandler, ht, hp, hres, he]
  · simp [resolveHandler, ht, hp, hres, hm]

/-- C4 (witness): the fetch-failure half at a concrete valid DID with a
one-entry ledger record and a failing fetch. -/
theorem c4_bestEffort_witness :
    resolveHandler (some "did:art:hkust:abc")
        (fun _ => .ok { cid := ["QmA"], owner := ["0xA"], created_at := 1, updated_at := 2 })
        (fun _ => .error "gateways down") "t" =
      ([.contractGetFullRecord "abc"],
       .ok { responseCode := 0, id := "did:art:hkust:abc",
             blockchainData :=
               { did := "abc", cid := "QmA", serviceEndpoint := "ipfs://QmA",
                 createdAt := 1, updatedAt := 2, walletaddress := "0xA",
                 resolvedAt := "t", owners := ["0xA"], cidHistory := ["QmA"] },
             ipfsMetadata := none, ipfsError := some "gateways down" }) :=
  (c4_bestEffort_fetch (some "did:art:hkust:abc")
      (fun _ => .ok { cid := ["QmA"], owner := ["0xA"], created_at := 1, updated_at := 2 })
      (fun _ => .error "gateways down") "t" "did:art:hkust:abc" ['a', 'b', 'c']
      { did := "abc", cid := "QmA", serviceEndpoint := "ipfs://QmA",
        createdAt := 1, updatedAt := 2, walletaddress := "0xA",
        resolvedAt := "t", owners := ["0xA"], cidHistory := ["QmA"] }
      rfl (by decide) (by decide) rfl).1 "gateways down" rfl

/-- C5: with the caller-operated node configured, `fetchFromIPFS` tries it
first with the 5000 ms bound; on primary success nothing else is
attempted and its data is returned; on primary failure the fixed gateway
list is tried strictly in order with 3000 ms bounds each, stopping at the
first success without attempting later sources; and the exhaustion error
is returned exactly when the primary and every gateway have failed. -/
theorem c5_fetch_policy (base cid : String) (oracle : String → Option String) :
    ((fetchFromIPFS (some base) oracle cid).1.head? = some ⟨primaryUrl base cid, 5000⟩) ∧
      (∀ d, oracle (primaryUrl base cid) = some d →
        fetchFromIPFS (some base) oracle cid = ([⟨primaryUrl base cid, 5000⟩], .ok d)) ∧
      (oracle (primaryUrl base cid) = none →
        ∀ pre u post d, gatewayUrls cid = pre ++ u :: post →
          (∀ v ∈ pre, oracle v = none) → oracle u = some d →
          fetchFromIPFS (some base) oracle cid =
            (⟨primaryUrl base cid, 5000⟩ :: (pre ++ [u]).map (fun w => ⟨w, 3000⟩), .ok d)) ∧
      ((fetchFromIPFS (some base) oracle cid).2 =
          .error ("All IPFS sources failed for CID: " ++ cid) ↔
        oracle (primaryUrl base cid) = none ∧ ∀ u ∈ gatewayUrls cid, oracle u = none) := by
  refine ⟨?_, fun d hd => ?_, fun hp pre u post d hg hpre hu => ?_, ?_⟩
  · cases hp : oracle (primaryUrl base cid) <;> simp [fetchFromIPFS, hp]
  · simp [fetchFromIPFS, hd]
  · simp [fetchFromIPFS, hp, hg,
      tryGateways_first_success oracle cid pre u post d hpre hu]
  · cases hp : oracle (primaryUrl base cid) with
    | none =>
      simpa [fetchFromIPFS, hp] using tryGateways_error_iff oracle cid (gatewayUrls cid)
    | some d => simp [fetchFromIPFS, hp]

/-- C5 (witness): primary configured but failing, first gateway failing,
second gateway succeeding: the second gateway's data is returned and the
third and fourth gateways are never attempted. -/
theorem c5_fetch_witness :
    fetchFromIPFS (some "http://node:5001")
        (fun u => if u = "https://dweb.link/ipfs/QmX" then some "DATA" else none) "QmX" =
      (⟨"http://node:5001/api/v0/cat?arg=QmX", 5000⟩ ::
        [⟨"https://cloudflare-ipfs.com/ipfs/QmX", 3000⟩, ⟨"https://dweb.link/ipfs/QmX", 3000⟩],
       .ok "DATA") :=
  (c5_fetch_policy "http://node:5001" "QmX"
      (fun u => if u = "https://dweb.link/ipfs/QmX" then some "DATA" else none)).2.2.1
    (by decide) ["https://cloudflare-ipfs.com/ipfs/QmX"] "https://dweb.link/ipfs/QmX"
    ["https://gateway.pinata.cloud/ipfs/QmX", "https://ipfs.io/ipfs/QmX"] "DATA"
    (by decide) (by decide) (by decide)

/-- C6: on a successful Update of a record whose content-address history
has length `n`, the metadata uploaded to IPFS carries `version = n + 1`
and `previousVersion = n`, and the response's `previousCid` is the last
entry of the pre-update history (`cids[cids.length - 1]`) and its
`version` is `n + 1`. -/
theorem c6_update_versioning (req : UpdateReq)
    (contractGetFull : String → Except String RawRecord)
    (put : EnhancedMeta → Except String String)
    (contractUpdate : String → String → Except String String)
    (isoOfEpoch : Nat → String) (now didStr : String) (hashChars : List Char)
    (rec : RawRecord) (newCid tx : String)
    (hd : req.did = some didStr) (ht : jsTruthy req.did = true)
    (hm : jsTruthy req.metadata = true)
    (hp : parseDID didStr.data = some hashChars)
    (hg : contractGetFull (String.mk hashChars) = .ok rec)
    (hput : put { base := req.metadata.getD "", standard := "Karen 2.0",
                  created := if rec.created_at ≠ 0 then isoOfEpoch rec.created_at else now,
                  updated := now, version := rec.cid.length + 1,
                  previousVersion := rec.cid.length } = .ok newCid)
    (hupd : contractUpdate (String.mk hashChars) newCid = .ok tx) :
    updateHandler req contractGetFull put contractUpdate isoOfEpoch now =
      ([.contractGetFullRecord (String.mk hashChars),
        .ipfsPut { base := req.metadata.getD "", standard := "Karen 2.0",
                   created := if rec.created_at ≠ 0 then isoOfEpoch rec.created_at else now,
                   updated := now, version := rec.cid.length + 1,
                   previousVersion := rec.cid.length },
        .ledgerUpdate (String.mk hashChars) newCid],
       .ok { did := didStr, txHash := tx, newCid := newCid,
             previousCid := jsIndex rec.cid ((rec.cid.length : Int) - 1),
             ipfsUrl := "https://ipfs.io/ipfs/" ++ newCid,
             version := rec.cid.length + 1,
             metadata := req.metadata.getD "" }) ∧
      ∀ c, rec.cid.getLast? = some c →
        jsIndex rec.cid ((rec.cid.length : Int) - 1) = some c := by
  constructor
  · rw [hd] at ht
    simp only [ne_eq, ite_not] at hput
    simp [updateHandler, hd, ht, hm, hp, hg, getFullRecord, updateArtwork, hupd, hput]
  · intro c hc
    have hne : rec.cid ≠ [] := by
      intro hnil
      rw [hnil] at hc
      cases hc
    have hlen : 0 < rec.cid.length := List.length_pos.mpr hne
    unfold jsIndex
    rw [if_neg (by omega)]
    have : ((rec.cid.length : Int) - 1).toNat = rec.cid.length - 1 := by omega
    rw [this, List.get?_eq_getElem?, ← List.getLast?_eq_getElem? rec.cid]
    exact hc

/-- C6 (witness): a concrete Update on a two-entry history: the uploaded
metadata carries version 3 and previousVersion 2, and the response
carries previousCid `Qm2` and version 3. -/
theorem c6_update_witness :
    updateHandler { did := some "did:art:hkust:abc", metadata := some "M" }
        (fun _ => .ok { cid := ["Qm1", "Qm2"], owner := ["0xA"], created_at := 7, updated_at := 9 })
        (fun _ => .ok "Qm3") (fun _ _ => .ok "0xTX") (fun n => "iso:" ++ toString n) "now" =
      ([.contractGetFullRecord "abc",
        .ipfsPut { base := "M", standard := "Karen 2.0", created := "iso:7",
                   updated := "now", version := 3, previousVersion := 2 },
        .ledgerUpdate "abc" "Qm3"],
       .ok { did := "did:art:hkust:abc", txHash := "0xTX", newCid := "Qm3",
             previousCid := some "Qm2", ipfsUrl := "https://ipfs.io/ipfs/Qm3",
             version := 3, metadata := "M" }) :=
  (c6_update_versioning { did := some "did:art:hkust:abc", metadata := some "M" }
      (fun _ => .ok { cid := ["Qm1", "Qm2"], owner := ["0xA"], created_at := 7, updated_at := 9 })
      (fun _ => .ok "Qm3") (fun _ _ => .ok "0xTX") (fun n => "iso:" ++ toString n)
      "now" "did:art:hkust:abc" ['a', 'b', 'c']
      { cid := ["Qm1", "Qm2"], owner := ["0xA"], created_at := 7, updated_at := 9 }
      "Qm3" "0xTX" rfl (by decide) (by decide) (by decide) rfl rfl rfl).1

/-- C8: a Transfer whose `newOwner` (when present) does not match
`/^0x[a-fA-F0-9]{40}$/` is rejected with HTTP 400 before any ledger or
content-store call: the handler's outward-call trace is empty. -/
theorem c8_address_validation (req : TransferReq)
    (contractTransfer : String → String → Except String String)
    (contractGetFull : String → Except String RawRecord)
    (contractGetLatestOwners : String → Except String (List String))
    (h : ∀ s, req.newOwner = some s → ethAddressMatch s = false) :
    (transferHandler req contractTransfer contractGetFull contractGetLatestOwners).1 = [] ∧
      (transferHandler req contractTransfer contractGetFull
          contractGetLatestOwners).2.statusCode = 400 := by
  unfold transferHandler
  by_cases ht : !(jsTruthy req.did) || !(jsTruthy req.newOwner)
  · rw [if_pos ht]
    exact ⟨rfl, rfl⟩
  · have hmatch : ethAddressMatch (req.newOwner.getD "") = false := by
      cases ho : req.newOwner with
      | none =>
        exfalso
        apply ht
        rw [Bool.or_eq_true_iff]
        exact Or.inr (by simp [jsTruthy, ho])
      | some s => simpa [ho] using h s ho
    rw [if_neg ht]
    simp only [hmatch, Bool.not_false, if_true]
    refine ⟨?_, ?_⟩ <;>
      · split
        · rfl
        · rfl

/-- C8 (witness): a concrete Transfer with a short hex string is rejected
400 with no outward calls. -/
theorem c8_address_witness :
    (transferHandler { did := some "did:art:hkust:abc", newOwner := some "0x12" }
          (fun _ _ => .ok "tx") (fun _ => .ok { cid := [], owner := [], created_at := 0, updated_at := 0 })
          (fun _ => .ok [])).1 = [] ∧
      (transferHandler { did := some "did:art:hkust:abc", newOwner := some "0x12" }
          (fun _ _ => .ok "tx") (fun _ => .ok { cid := [], owner := [], created_at := 0, updated_at := 0 })
          (fun _ => .ok [])).2.statusCode = 400 :=
  c8_address_validation { did := some "did:art:hkust:abc", newOwner := some "0x12" }
    (fun _ _ => .ok "tx") (fun _ => .ok { cid := [], owner := [], created_at := 0, updated_at := 0 })
    (fun _ => .ok []) (fun s hs => by cases hs; decide)

/-- C7 (counterexample): the response's `previousOwner` is
`owners[owners.length - 2] || "N/A"`, and `||` also replaces a falsy
*empty-string* entry: with post-mutation owner history `["", "0xB"]`
(2 entries, second-to-last `""`), the handler answers `"N/A"`, not the
second-to-last entry, although the history does not have fewer than 2
entries. -/
theorem c7_previousOwner_counterexample :
    (transferHandler
          { did := some "did:art:hkust:abc",
            newOwner := some "0xaaaaaaaaaaaaaaaaaaaaaaaaaaaaaaaaaaaaaaaa" }
          (fun _ _ => .ok "0xTX")
          (fun _ => .ok { cid := ["Qm1"], owner := ["", "0xB"], created_at := 1, updated_at := 2 })
          (fun _ => .ok ["", "0xB"])).2 =
        .ok { did := "did:art:hkust:abc", txHash := "0xTX", previousOwner := "N/A",
              newOwner := "0xaaaaaaaaaaaaaaaaaaaaaaaaaaaaaaaaaaaaaaaa",
              currentOwner := "0xB", totalOwners := 2 } ∧
      (["", "0xB"] : List String).get? 0 = some "" ∧ ("N/A" : String) ≠ "" := by
  refine ⟨by decide, by decide, by decide⟩

/-- C7 (amended): on a successful Transfer the handler issues the ledger
mutation first and only then the `getFullRecord`/`getLatestRecord`
re-reads, and every response field comes from those post-mutation reads;
`previousOwner` is the second-to-last entry of the post-mutation owner
history when that history has at least 2 entries *and* that entry is
non-empty, and `"N/A"` otherwise (an empty-string entry is falsy and also
replaced by `"N/A"`). -/
theorem c7_transfer_reread (req : TransferReq)
    (contractTransfer : String → String → Except String String)
    (contractGetFull : String → Except String RawRecord)
    (contractGetLatestOwners : String → Except String (List String))
    (didStr addr : String) (hashChars : List Char) (tx : String)
    (rec : RawRecord) (latestOwners : List String)
    (hd : req.did = some didStr) (ht : jsTruthy req.did = true)
    (ho : req.newOwner = some addr)
    (hp : parseDID didStr.data = some hashChars)
    (hmatch : ethAddressMatch addr = true)
    (htr : contractTransfer (String.mk hashChars) addr = .ok tx)
    (hg : contractGetFull (String.mk hashChars) = .ok rec)
    (hlo : contractGetLatestOwners (String.mk hashChars) = .ok latestOwners) :
    transferHandler req contractTransfer contractGetFull contractGetLatestOwners =
      ([.ledgerTransfer (String.mk hashChars) addr,
        .contractGetFullRecord (String.mk hashChars),
        .getLatestRecord (String.mk hashChars)],
       .ok { did := didStr, txHash := tx,
             previousOwner :=
               jsOrString (jsIndex rec.owner ((rec.owner.length : Int) - 2)) "N/A",
             newOwner := addr, currentOwner := latestOwners.getLast?.getD "",
             totalOwners := rec.owner.length }) ∧
      (rec.owner.length < 2 →
        jsOrString (jsIndex rec.owner ((rec.owner.length : Int) - 2)) "N/A" = "N/A") ∧
      ∀ p, 2 ≤ rec.owner.length → rec.owner.get? (rec.owner.length - 2) = some p →
        p ≠ "" →
        jsOrString (jsIndex rec.owner ((rec.owner.length : Int) - 2)) "N/A" = p := by
  refine ⟨?_, fun hlen => ?_, fun p h2 hg2 hne => ?_⟩
  · have haddr : addr ≠ "" := by
      intro h0
      rw [h0] at hmatch
      simp [ethAddressMatch] at hmatch
    rw [hd] at ht
    have htd : didStr ≠ "" := by simpa [jsTruthy] using ht
    simp [transferHandler, hd, ho, ht, htd, haddr, jsTruthy, hp, hmatch,
      transferOwnership, htr, getFullRecord, hg, getCurrentOwner, hlo]
  · unfold jsIndex
    rw [if_pos (by omega)]
    rfl
  · unfold jsIndex
    rw [if_neg (by omega)]
    have hto : ((rec.owner.length : Int) - 2).toNat = rec.owner.length - 2 := by omega
    rw [hto, hg2]
    simp [jsOrString, hne]

/-- C7 (witness): the amended statement at a concrete transfer whose
post-mutation owner history is `["0xA", "0xB"]`: the call trace is
mutation-then-re-reads and `previousOwner` is `"0xA"`. -/
theorem c7_transfer_witness :
    transferHandler
        { did := some "did:art:hkust:abc",
          newOwner := some "0xaaaaaaaaaaaaaaaaaaaaaaaaaaaaaaaaaaaaaaaa" }
        (fun _ _ => .ok "0xTX")
        (fun _ => .ok { cid := ["Qm1"], owner := ["0xA", "0xB"], created_at := 1, updated_at := 2 })
        (fun _ => .ok ["0xA", "0xB"]) =
      ([.ledgerTransfer "abc" "0xaaaaaaaaaaaaaaaaaaaaaaaaaaaaaaaaaaaaaaaa",
        .contractGetFullRecord "abc", .getLatestRecord "abc"],
       .ok { did := "did:art:hkust:abc", txHash := "0xTX", previousOwner := "0xA",
             newOwner := "0xaaaaaaaaaaaaaaaaaaaaaaaaaaaaaaaaaaaaaaaa",
             currentOwner := "0xB", totalOwners := 2 }) :=
  (c7_transfer_reread
      { did := some "did:art:hkust:abc",
        newOwner := some "0xaaaaaaaaaaaaaaaaaaaaaaaaaaaaaaaaaaaaaaaa" }
      (fun _ _ => .ok "0xTX")
      (fun _ => .ok { cid := ["Qm1"], owner := ["0xA", "0xB"], created_at := 1, updated_at := 2 })
      (fun _ => .ok ["0xA", "0xB"])
      "did:art:hkust:abc" "0xaaaaaaaaaaaaaaaaaaaaaaaaaaaaaaaaaaaaaaaa"
      ['a', 'b', 'c'] "0xTX"
      { cid := ["Qm1"], owner := ["0xA", "0xB"], created_at := 1, updated_at := 2 }
      ["0xA", "0xB"] rfl (by decide) rfl (by decide) (by decide) rfl rfl rfl).1

/-- C9: when the register transaction receipt contains no log whose first
topic is the `RecordSet` event topic, `registerArtwork` still succeeds
with `did = ""`, so the /register handler reports success with the DID
`did:art:hkust:` — the fixed prefix followed by nothing. -/
theorem c9_register_emptyDid (req : RegisterReq) (upload : Except String String)
    (register : String → Except String Receipt) (cid : String) (receipt : Receipt)
    (hm : jsTruthy req.metadata = true) (hu : upload = .ok cid)
    (hr : register cid = .ok receipt)
    (hlogs : ∀ l ∈ receipt.logs, ¬l.topics.head? = some recordSetTopic) :
    registerArtwork (register cid) = .ok { did := "", txHash := receipt.hash } ∧
      registerHandler req upload register =
        .ok { did := "did:art:hkust:", standard := "Karen 1.0", txHash := receipt.hash,
              cid := cid, ipfsUrl := "https://ipfs.io/ipfs/" ++ cid,
              metadata := req.metadata.getD "" } := by
  have hfind :
      receipt.logs.find? (fun l => decide (l.topics.head? = some recordSetTopic)) = none := by
    rw [List.find?_eq_none]
    intro l hl
    simpa using hlogs l hl
  constructor
  · simp [registerArtwork, hr, hfind]
  · simp [registerHandler, hm, hu, registerArtwork, hr, hfind]

/-- C9 (witness): a concrete receipt whose only log has a different first
topic: registration succeeds and the response DID is the bare prefix. -/
theorem c9_register_witness :
    registerHandler { metadata := some "M" } (.ok "QmZ")
        (fun _ => .ok { logs := [{ topics := ["0xother"] }], hash := "0xH" }) =
      .ok { did := "did:art:hkust:", standard := "Karen 1.0", txHash := "0xH",
            cid := "QmZ", ipfsUrl := "https://ipfs.io/ipfs/QmZ", metadata := "M" } :=
  (c9_register_emptyDid { metadata := some "M" } (.ok "QmZ")
      (fun _ => .ok { logs := [{ topics := ["0xother"] }], hash := "0xH" }) "QmZ"
      { logs := [{ topics := ["0xother"] }], hash := "0xH" }
      (by decide) rfl rfl (by decide)).2

/-- C10: the /check endpoint hands the raw `did` query string to the
ledger's `hasRecord` without any codec parsing, while /resolve queries
the ledger with only the fourth colon segment: for
`did:art:hkust:<x>` (colon-free `x`) the two endpoints consult the
different ledger keys `did:art:hkust:<x>` and `x`. -/
theorem c10_check_vs_resolve_keys (x : String) (hx : ':' ∉ x.data)
    (hasRecord : String → Except String Bool)
    (contractGetFull : String → Except String RawRecord)
    (fetch : String → Except String String) (now : String) :
    (checkHandler (some ("did:art:hkust:" ++ x)) hasRecord).1 =
        [.hasRecord ("did:art:hkust:" ++ x)] ∧
      (resolveHandler (some ("did:art:hkust:" ++ x)) contractGetFull fetch now).1 =
        [.contractGetFullRecord x] ∧
      "did:art:hkust:" ++ x ≠ x := by
  have hdata : ("did:art:hkust:" ++ x).data =
      didLit ++ ':' :: (artLit ++ ':' :: (hkustLit ++ ':' :: x.data)) := rfl
  have hsplit : splitColon ("did:art:hkust:" ++ x).data =
      didLit :: artLit :: hkustLit :: x.data :: [] := by
    rw [hdata, splitColon_append_colon didLit _ (by decide),
      splitColon_append_colon artLit _ (by decide),
      splitColon_append_colon hkustLit _ (by decide), splitColon_no_colon x.data hx]
  have hne : ("did:art:hkust:" ++ x) ≠ "" := by
    intro h
    have h2 : ("did:art:hkust:" ++ x).data = [] := by
      rw [h]
    rw [hdata] at h2
    simp [didLit] at h2
  have ht : jsTruthy (some ("did:art:hkust:" ++ x)) = true := by
    simp [jsTruthy, hne]
  have hpar : parseDID ("did:art:hkust:" ++ x).data = some x.data := by
    rw [parseDID_cons _ _ _ _ _ _ hsplit]
    simp
  have hpar' : parseDID
      ('d' :: 'i' :: 'd' :: ':' :: 'a' :: 'r' :: 't' :: ':' ::
        'h' :: 'k' :: 'u' :: 's' :: 't' :: ':' :: x.data) = some x.data := hpar
  refine ⟨?_, ?_, ?_⟩
  · simp [checkHandler, ht]
  · cases hres : resolveDIDService (String.mk x.data) now (contractGetFull (String.mk x.data)) with
    | error e => simp [resolveHandler, ht, hpar, hpar', hres]
    | ok bd =>
      cases hf : fetch bd.cid with
      | error e => simp [resolveHandler, ht, hpar, hpar', hres, hf]
      | ok m => simp [resolveHandler, ht, hpar, hpar', hres, hf]
  · intro h
    have h2 := congrArg (fun s => s.data.length) h
    simp only [hdata] at h2
    simp [didLit, artLit, hkustLit] at h2
    omega

/-- C10 (witness): at `x = "abc"`, /check queries the ledger with
`did:art:hkust:abc` while /resolve queries it with `abc`, and those keys
differ. -/
theorem c10_keys_witness :
    (checkHandler (some "did:art:hkust:abc") (fun _ => .ok true)).1 =
        [.hasRecord "did:art:hkust:abc"] ∧
      (resolveHandler (some "did:art:hkust:abc") (fun _ => .error "down")
          (fun _ => .error "down") "t").1 =
        [.contractGetFullRecord "abc"] ∧
      "did:art:hkust:abc" ≠ "abc" :=
  c10_check_vs_resolve_keys "abc" (by decide) (fun _ => .ok true)
    (fun _ => .error "down") (fun _ => .error "down") "t"

end DidApi

